import Mathlib

/-!
Shallow embedding of the persistence layer of `src/App.js` (a personal book
library over an async key-value store) and proofs of the specified
properties of its operations.

The store holds two independent entries: the serialized book collection
under key `books` and the textual last-viewed book id under key `lastBook`.
Asynchronous storage failures are modelled by explicit boolean parameters
(`rf` for a read that throws, `wf` for a write that throws), since the
JavaScript code catches those exceptions at fixed places.
-/

namespace App

/-! ### Decimal representation of `Nat`

`App.js` stores the last-viewed pointer as `String(item.id)` and resolves it
by comparing `String(b.id) === lastBookId`.  The embedding uses `toString`
(that is, `Nat.repr`), so we need that this decimal representation is
injective.  We prove it by decoding the digit string back to the number. -/

/-- Numeric value of a decimal digit character. -/
def charToDigit (c : Char) : Nat := c.toNat - 48

/-- Decode a list of decimal digit characters (most significant first). -/
def valDigits (l : List Char) : Nat := l.foldl (fun a c => 10 * a + charToDigit c) 0

/-! ### Data model

A book record has exactly the four fields written to storage by `App.js`:
`{ id, title, author, status }` (`id` is `Date.now()`, an integer). -/

/-- A book record as persisted by `App.js`: `{ id, title, author, status }`. -/
structure Book where
  id : Nat
  title : String
  author : String
  status : String
  deriving Repr, DecidableEq

/-- The key-value store (`AsyncStorage`) as used by `App.js`: the value under
key `books` (absent or a serialized book list, modelled at the typed level)
and the value under key `lastBook` (absent or a textual id). -/
structure Store where
  books : Option (List Book)
  lastBook : Option String
  deriving Repr, DecidableEq

/-- Key under which the collection is persisted (`App.js` line 8). -/
def BOOKS_KEY : String := "books"

/-- Key under which the last-viewed pointer is persisted (`App.js` line 9). -/
def LAST_BOOK_KEY : String := "lastBook"

/-- A store with neither entry present. -/
def emptyStore : Store := ⟨none, none⟩

/-! ### Store operations, translated from `src/App.js` -/

/-- Translation of `getBooks` (`App.js` lines 12-20): read the `books` entry;
a missing entry yields `[]`, and a read failure (`rf`) is caught and also
yields `[]`. -/
def getBooks (st : Store) (rf : Bool) : List Book :=
  if rf then []
  else
    match st.books with
    | some bs => bs
    | none => []

/-- Translation of `saveBooks` (`App.js` lines 22-28): write the `books`
entry; a write failure (`wf`) is caught and the store is left unchanged,
with no error reported to the caller. -/
def saveBooks (st : Store) (bs : List Book) (wf : Bool) : Store :=
  if wf then st else { st with books := some bs }

/-- Translation of `deleteBook` (`App.js` lines 117-126): filter out every
record whose id equals the given id and persist the result. -/
def deleteBook (st : Store) (id : Nat) (rf wf : Bool) : Store :=
  saveBooks st ((getBooks st rf).filter (fun b => b.id != id)) wf

/-- Whitespace as stripped by JavaScript's `String.prototype.trim`
(the characters relevant to text input; the full ECMAScript set also
includes rarer Unicode space separators). -/
def isJsWhitespace (c : Char) : Bool :=
  c = ' ' || c = '\t' || c = '\n' || c = '\r' ||
    c = '\u000B' || c = '\u000C' || c = ' ' || c = '﻿'

/-- JavaScript's `String.prototype.trim`: strip leading and trailing
whitespace. -/
def jsTrim (s : String) : String :=
  ⟨((s.data.dropWhile isJsWhitespace).reverse.dropWhile isJsWhitespace).reverse⟩

/-- A storage operation performed by `saveBook`, used to state that
validation failures return before any store access. -/
inductive StorageOp where
  | read
  | write
  deriving Repr, DecidableEq

/-- Result of a `saveBook` call: the resulting store, whether the
validation alert was shown, and the storage operations performed. -/
structure SaveResult where
  store : Store
  alerted : Bool
  ops : List StorageOp
  deriving Repr, DecidableEq

/-- Translation of `saveBook` (`App.js` lines 155-174).  `editing` is
`route.params.book` when present (edit mode) and `none` in add mode; `t`,
`a`, `s` are the form fields and `now` is the value of `Date.now()` at the
call.  Empty-after-trim fields alert and return before any store access;
edit mode maps over the collection replacing the fields of records whose id
matches; add mode appends `{ id: Date.now(), title, author, status }`. -/
def saveBook (st : Store) (editing : Option Book) (t a s : String) (now : Nat)
    (rf wf : Bool) : SaveResult :=
  if jsTrim t == "" || jsTrim a == "" || jsTrim s == "" then
    ⟨st, true, []⟩
  else
    let books := getBooks st rf
    match editing with
    | some book0 =>
      let updatedBooks := books.map (fun b =>
        if b.id = book0.id then { b with title := t, author := a, status := s } else b)
      ⟨saveBooks st updatedBooks wf, false, [.read, .write]⟩
    | none =>
      let newBook : Book := ⟨now, t, a, s⟩
      ⟨saveBooks st (books ++ [newBook]) wf, false, [.read, .write]⟩

/-- Translation of the `onPress` handler in `renderItem` (`App.js` line 89):
store `String(item.id)` under `lastBook`; a write failure is caught and
leaves the store unchanged. -/
def setLastViewed (st : Store) (id : Nat) (wf : Bool) : Store :=
  if wf then st else { st with lastBook := some (toString id) }

/-- Translation of `fetchLastBook` (`App.js` lines 34-48): read the
`lastBook` entry (a failing or absent read, or an empty string, yields no
book), then find the book whose `String(b.id)` equals the stored text. -/
def fetchLastBook (st : Store) (rfPtr rfBooks : Bool) : Option Book :=
  if rfPtr then none
  else
    match st.lastBook with
    | none => none
    | some lastBookId =>
      if lastBookId == "" then none
      else
        match (getBooks st rfBooks).find? (fun b => toString b.id == lastBookId) with
        | some book => some book
        | none => none

/-- The ids of the currently persisted collection. -/
def bookIds (st : Store) : List Nat := (getBooks st false).map (·.id)

/-- One `saveBook` call with all its inputs: the editing parameter of the
screen, the three form fields, the `Date.now()` value, and whether the
underlying read and write throw. -/
structure UpsertCall where
  editing : Option Book
  title : String
  author : String
  status : String
  now : Nat
  rf : Bool
  wf : Bool
  deriving Repr, DecidableEq

/-- Apply one `saveBook` call to the store. -/
def applyUpsert (st : Store) (c : UpsertCall) : Store :=
  (saveBook st c.editing c.title c.author c.status c.now c.rf c.wf).store

/-- Apply a sequence of `saveBook` calls to the store, in order. -/
def applyUpserts (st : Store) (cs : List UpsertCall) : Store :=
  cs.foldl applyUpsert st

/-- A sequence of calls is fresh when every add-mode call's `Date.now()`
value differs from every id the call reads from the store at that moment. -/
def FreshSeq : Store → List UpsertCall → Prop
  | _, [] => True
  | st, c :: cs =>
    (c.editing = none → c.now ∉ (getBooks st c.rf).map (·.id)) ∧
      FreshSeq (applyUpsert st c) cs

/-! ### Helper lemmas -/

theorem toDigitsCore_append (b : Nat) :
    ∀ (f n : Nat) (ds : List Char),
      Nat.toDigitsCore b f n ds = Nat.toDigitsCore b f n [] ++ ds := by
  intro f
  induction f with
  | zero => intro n ds; simp [Nat.toDigitsCore]
  | succ f ih =>
    intro n ds
    simp only [Nat.toDigitsCore]
    by_cases h : n / b = 0
    · simp [h]
    · simp only [h, if_false]
      rw [ih (n / b) (Nat.digitChar (n % b) :: ds), ih (n / b) [Nat.digitChar (n % b)]]
      simp

theorem valDigits_append_one (xs : List Char) (c : Char) :
    valDigits (xs ++ [c]) = 10 * valDigits xs + charToDigit c := by
  simp [valDigits, List.foldl_append]

theorem charToDigit_digitChar : ∀ k, k < 10 → charToDigit (Nat.digitChar k) = k := by decide

theorem valDigits_toDigitsCore :
    ∀ f n : Nat, n < f → valDigits (Nat.toDigitsCore 10 f n []) = n := by
  intro f
  induction f with
  | zero => intro n h; omega
  | succ f ih =>
    intro n h
    simp only [Nat.toDigitsCore]
    by_cases h0 : n / 10 = 0
    · simp only [h0, if_true]
      have hlt : n % 10 < 10 := Nat.mod_lt _ (by omega)
      simp [valDigits, charToDigit_digitChar _ hlt]
      omega
    · simp only [h0, if_false]
      rw [toDigitsCore_append 10 f (n / 10) [Nat.digitChar (n % 10)],
        valDigits_append_one]
      rw [ih (n / 10) (by omega)]
      have hlt : n % 10 < 10 := Nat.mod_lt _ (by omega)
      rw [charToDigit_digitChar _ hlt]
      omega

theorem natRepr_injective : Function.Injective Nat.repr := by
  intro m n h
  have hd : Nat.toDigits 10 m = Nat.toDigits 10 n := by
    have h' := congrArg String.data h
    simpa [Nat.repr, List.asString] using h'
  have hm := valDigits_toDigitsCore (m + 1) m (by omega)
  have hn := valDigits_toDigitsCore (n + 1) n (by omega)
  simp only [Nat.toDigits] at hd
  rw [← hm, ← hn, hd]

theorem natToString_injective : Function.Injective (toString : Nat → String) :=
  natRepr_injective

theorem getBooks_saveBooks (st : Store) (bs : List Book) :
    getBooks (saveBooks st bs false) false = bs := rfl

/-! ### Claim theorems -/

/-- C4: error containment at the store boundary — a storage read failure
makes `getBooks` return the empty list, indistinguishable from an empty
store (which also yields the empty list); a storage write failure leaves
the store unchanged, and `saveBooks` returns no error value either way, so
the caller cannot distinguish success from failure. -/
theorem store_error_containment (st : Store) (bs : List Book) :
    getBooks st true = [] ∧ getBooks emptyStore false = [] ∧
      getBooks st true = getBooks emptyStore false ∧
      saveBooks st bs true = st := by
  refine ⟨rfl, rfl, rfl, ?_⟩
  simp [saveBooks]

/-- C5: `deleteBook id` persists exactly the stored collection with the
records whose id equals `id` removed, and when no record has that id it is
a no-op on the collection. -/
theorem deleteBook_spec (st : Store) (id : Nat) :
    getBooks (deleteBook st id false false) false
        = (getBooks st false).filter (fun b => b.id != id) ∧
      (id ∉ bookIds st →
        getBooks (deleteBook st id false false) false = getBooks st false) := by
  constructor
  · rw [deleteBook, getBooks_saveBooks]
  · intro h
    rw [deleteBook, getBooks_saveBooks]
    apply List.filter_eq_self.mpr
    intro b hb
    have hne : b.id ≠ id := by
      intro he
      exact h (he ▸ List.mem_map_of_mem (·.id) hb)
    simpa using hne

/-- C5 witness: deleting an absent id from a concrete store leaves the
collection unchanged. -/
theorem deleteBook_spec_witness :
    getBooks (deleteBook ⟨some [⟨1, "A", "X", "r"⟩], none⟩ 2 false false) false
      = getBooks (⟨some [⟨1, "A", "X", "r"⟩], none⟩ : Store) false :=
  (deleteBook_spec ⟨some [⟨1, "A", "X", "r"⟩], none⟩ 2).2 (by decide)

/-- C10: a single `deleteBook id` removes every record whose id equals
`id` (duplicates included) and keeps the remaining records in their
original relative order. -/
theorem deleteBook_removes_all_matches (st : Store) (id : Nat) :
    (getBooks (deleteBook st id false false) false).all (fun b => b.id != id) = true ∧
      List.Sublist (getBooks (deleteBook st id false false) false) (getBooks st false) := by
  rw [deleteBook, getBooks_saveBooks]
  constructor
  · rw [List.all_eq_true]
    intro b hb
    exact (List.mem_filter.mp hb).2
  · exact List.filter_sublist _

/-- C7: when any of the three form fields is empty after trimming,
`saveBook` alerts, performs no storage operation, and leaves the store
unchanged — regardless of mode and of the failure flags. -/
theorem saveBook_validation_atomic (st : Store) (ed : Option Book) (t a s : String)
    (now : Nat) (rf wf : Bool)
    (h : (jsTrim t == "" || jsTrim a == "" || jsTrim s == "") = true) :
    saveBook st ed t a s now rf wf = ⟨st, true, []⟩ := by
  simp [saveBook, h]

/-- C7 witness: a save with an empty title alerts and touches nothing. -/
theorem saveBook_validation_atomic_witness :
    saveBook emptyStore none "" "x" "y" 3 false false = ⟨emptyStore, true, []⟩ :=
  saveBook_validation_atomic emptyStore none "" "x" "y" 3 false false (by decide)

/-- C9: the two persisted entries are independent — `setLastViewed` leaves
the `books` entry unchanged, while `deleteBook` and `saveBook` leave the
`lastBook` entry unchanged. -/
theorem store_entries_independent (st : Store) (x id now : Nat) (ed : Option Book)
    (t a s : String) (wfp rf wf : Bool) :
    (setLastViewed st x wfp).books = st.books ∧
      (deleteBook st id rf wf).lastBook = st.lastBook ∧
      (saveBook st ed t a s now rf wf).store.lastBook = st.lastBook := by
  refine ⟨?_, ?_, ?_⟩
  · cases wfp <;> simp [setLastViewed]
  · cases wf <;> simp [deleteBook, saveBooks]
  · unfold saveBook
    split
    · rfl
    · cases ed <;> cases wf <;> simp [saveBooks]

/-- C6: after `setLastViewed x` and then `deleteBook x`, the last-viewed
pointer still holds the textual id `x` (it is not cleaned up), and
resolving it against the stored collection yields no book rather than an
error. -/
theorem lastViewed_dangling_tolerated (st : Store) (x : Nat) :
    (deleteBook (setLastViewed st x false) x false false).lastBook
        = some (toString x) ∧
      fetchLastBook (deleteBook (setLastViewed st x false) x false false) false false
        = none := by
  have hlast : (deleteBook (setLastViewed st x false) x false false).lastBook
      = some (toString x) := by
    simp [setLastViewed, deleteBook, saveBooks]
  refine ⟨hlast, ?_⟩
  rw [fetchLastBook]
  simp only [if_false, Bool.false_eq_true]
  rw [hlast]
  by_cases he : (toString x == "") = true
  · simp [he]
  · simp only [he, if_false]
    have hfind : (getBooks (deleteBook (setLastViewed st x false) x false false) false).find?
        (fun b => toString b.id == toString x) = none := by
      apply List.find?_eq_none.mpr
      intro b hb
      have hmem : b ∈ (getBooks (setLastViewed st x false) false).filter
          (fun b => b.id != x) := by
        simpa [deleteBook, getBooks_saveBooks] using hb
      have hne : b.id ≠ x := by simpa using (List.mem_filter.mp hmem).2
      simp only [beq_iff_eq]
      exact fun hc => hne (natToString_injective hc)
    simp [hfind]

/-- C8: the collection lives under key `books` as a sequence of records
with exactly the fields id, title, author, status; the last-viewed pointer
lives under key `lastBook` as the textual form of an integer id (written
as `String(item.id)`); and the last-viewed book is resolved by joining
that text against the ids of the listed collection, so a successful
resolution returns a listed book whose textual id is the stored text. -/
theorem persisted_layout (st : Store) (x : Nat) (b : Book) :
    BOOKS_KEY = "books" ∧ LAST_BOOK_KEY = "lastBook" ∧
      (setLastViewed st x false).lastBook = some (toString x) ∧
      (fetchLastBook st false false = some b →
        b ∈ getBooks st false ∧ st.lastBook = some (toString b.id)) := by
  refine ⟨rfl, rfl, by simp [setLastViewed], ?_⟩
  intro h
  rw [fetchLastBook] at h
  simp only [Bool.false_eq_true, if_false] at h
  split at h
  · exact absurd h (by simp)
  · rename_i lastBookId hlb
    split at h
    · exact absurd h (by simp)
    · split at h
      · rename_i book hf
        have hbb : book = b := by simpa using h
        subst hbb
        refine ⟨List.mem_of_find?_eq_some hf, ?_⟩
        have ht : toString book.id = lastBookId := by simpa using List.find?_some hf
        rw [hlb, ← ht]
      · exact absurd h (by simp)

/-- C8 witness: a concrete store where resolution succeeds, giving a listed
book whose textual id is the stored pointer text. -/
theorem persisted_layout_witness :
    (⟨1, "A", "X", "r"⟩ : Book) ∈ getBooks ⟨some [⟨1, "A", "X", "r"⟩], some "1"⟩ false ∧
      (⟨some [⟨1, "A", "X", "r"⟩], some "1"⟩ : Store).lastBook
        = some (toString (⟨1, "A", "X", "r"⟩ : Book).id) :=
  (persisted_layout ⟨some [⟨1, "A", "X", "r"⟩], some "1"⟩ 0 ⟨1, "A", "X", "r"⟩).2.2.2
    (by decide)

/-- C1 counterexample: the upsert claim fails in edit mode when the book's
id has no match — starting from an empty collection, saving from the edit
screen for the book with id 1 and fields B/Y/s (with `Date.now()` equal
to 7) persists the empty collection; no new record with the freshly
generated id is appended. -/
theorem saveBook_upsert_counterexample :
    (saveBook emptyStore (some ⟨1, "A", "X", "r"⟩) "B" "Y" "s" 7 false false).store.books
        = some [] ∧
      (⟨7, "B", "Y", "s"⟩ : Book) ∉
        getBooks (saveBook emptyStore (some ⟨1, "A", "X", "r"⟩) "B" "Y" "s" 7
          false false).store false := by
  decide

/-- C1 amended: for a validated save, edit mode replaces title/author/status
of every record whose id matches the edited book's id and keeps all ids
unchanged; add mode appends the record `{id: now, title, author, status}`;
and edit mode with no matching id persists the collection unchanged. -/
theorem saveBook_upsert_amended (st : Store) (b0 : Book) (t a s : String) (now : Nat)
    (hv : (jsTrim t == "" || jsTrim a == "" || jsTrim s == "") = false) :
    getBooks (saveBook st (some b0) t a s now false false).store false
        = (getBooks st false).map (fun b =>
            if b.id = b0.id then { b with title := t, author := a, status := s } else b) ∧
      bookIds (saveBook st (some b0) t a s now false false).store = bookIds st ∧
      getBooks (saveBook st none t a s now false false).store false
        = getBooks st false ++ [⟨now, t, a, s⟩] ∧
      (b0.id ∉ bookIds st →
        getBooks (saveBook st (some b0) t a s now false false).store false
          = getBooks st false) := by
  have hedit : getBooks (saveBook st (some b0) t a s now false false).store false
      = (getBooks st false).map (fun b =>
          if b.id = b0.id then { b with title := t, author := a, status := s } else b) := by
    simp [saveBook, hv, getBooks_saveBooks]
  refine ⟨hedit, ?_, ?_, ?_⟩
  · rw [bookIds, hedit, List.map_map, bookIds]
    apply List.map_congr_left
    intro b _
    by_cases h : b.id = b0.id <;> simp [h]
  · simp [saveBook, hv, getBooks_saveBooks]
  · intro habs
    rw [hedit]
    conv_rhs => rw [← List.map_id (getBooks st false)]
    apply List.map_congr_left
    intro b hb
    have hne : b.id ≠ b0.id := fun he => habs (he ▸ List.mem_map_of_mem (·.id) hb)
    simp [hne]

/-- C1 amended witness: an edit-mode save whose id has no match persists
the concrete collection unchanged. -/
theorem saveBook_upsert_amended_witness :
    getBooks (saveBook ⟨some [⟨1, "A", "X", "r"⟩], none⟩ (some ⟨2, "q", "q", "q"⟩)
        "B" "Y" "s" 7 false false).store false
      = getBooks (⟨some [⟨1, "A", "X", "r"⟩], none⟩ : Store) false :=
  (saveBook_upsert_amended ⟨some [⟨1, "A", "X", "r"⟩], none⟩ ⟨2, "q", "q", "q"⟩
      "B" "Y" "s" 7 (by decide)).2.2.2 (by decide)

/-- C3 counterexample: a book whose title is the non-empty string of one
blank is valid in the claim's sense (all text fields non-empty), yet the
save is rejected by the trimming validation, so `listAll` after the upsert
is still empty and contains no record with the book's fields. -/
theorem upsert_roundtrip_counterexample :
    (" " : String) ≠ "" ∧
      getBooks (saveBook emptyStore none " " "X" "r" 1 false false).store false = [] ∧
      (⟨1, " ", "X", "r"⟩ : Book) ∉
        getBooks (saveBook emptyStore none " " "X" "r" 1 false false).store false := by
  decide

/-- C3 amended: for fields that are non-empty after trimming, an add-mode
upsert makes `listAll` contain the record with the generated id and those
fields, and an edit-mode upsert whose id is present makes `listAll`
contain the record with that id and those fields. -/
theorem upsert_roundtrip_amended (st : Store) (b0 : Book) (t a s : String) (now : Nat)
    (hv : (jsTrim t == "" || jsTrim a == "" || jsTrim s == "") = false) :
    (⟨now, t, a, s⟩ : Book) ∈
        getBooks (saveBook st none t a s now false false).store false ∧
      (b0.id ∈ bookIds st →
        (⟨b0.id, t, a, s⟩ : Book) ∈
          getBooks (saveBook st (some b0) t a s now false false).store false) := by
  constructor
  · simp [saveBook, hv, getBooks_saveBooks]
  · intro hmem
    obtain ⟨b, hb, hbid⟩ := List.mem_map.mp hmem
    have hedit : getBooks (saveBook st (some b0) t a s now false false).store false
        = (getBooks st false).map (fun b =>
            if b.id = b0.id then { b with title := t, author := a, status := s } else b) := by
      simp [saveBook, hv, getBooks_saveBooks]
    rw [hedit]
    refine List.mem_map.mpr ⟨b, hb, ?_⟩
    rw [if_pos hbid]
    cases b
    simp only at hbid
    rw [hbid]

/-- C3 amended witness: a concrete edit-mode save with a matching id leaves
the updated record observable through `getBooks`. -/
theorem upsert_roundtrip_amended_witness :
    (⟨1, "B", "Y", "s"⟩ : Book) ∈
      getBooks (saveBook ⟨some [⟨1, "A", "X", "r"⟩], none⟩ (some ⟨1, "A", "X", "r"⟩)
        "B" "Y" "s" 7 false false).store false :=
  (upsert_roundtrip_amended ⟨some [⟨1, "A", "X", "r"⟩], none⟩ ⟨1, "A", "X", "r"⟩
      "B" "Y" "s" 7 (by decide)).2 (by decide)

theorem bookIds_applyUpsert_nodup (st : Store) (c : UpsertCall)
    (h0 : (bookIds st).Nodup)
    (hf : c.editing = none → c.now ∉ (getBooks st c.rf).map (·.id)) :
    (bookIds (applyUpsert st c)).Nodup := by
  obtain ⟨ed, t, a, s, now, rf, wf⟩ := c
  simp only at hf
  by_cases hv : (jsTrim t == "" || jsTrim a == "" || jsTrim s == "") = true
  · simpa [applyUpsert, saveBook, hv] using h0
  · rw [Bool.not_eq_true] at hv
    cases ed with
    | some b0 =>
      cases wf with
      | true => simpa [applyUpsert, saveBook, hv, saveBooks] using h0
      | false =>
        cases rf with
        | true => simp [applyUpsert, saveBook, hv, bookIds, getBooks, saveBooks]
        | false =>
          have : bookIds (applyUpsert st ⟨some b0, t, a, s, now, false, false⟩)
              = bookIds st := by
            simp only [applyUpsert, saveBook, hv, Bool.false_eq_true, if_false]
            rw [bookIds, getBooks_saveBooks, List.map_map, bookIds]
            apply List.map_congr_left
            intro b _
            by_cases h : b.id = b0.id <;> simp [h]
          rw [this]
          exact h0
    | none =>
      cases wf with
      | true => simpa [applyUpsert, saveBook, hv, saveBooks] using h0
      | false =>
        cases rf with
        | true => simp [applyUpsert, saveBook, hv, bookIds, getBooks, saveBooks]
        | false =>
          have heq : bookIds (applyUpsert st ⟨none, t, a, s, now, false, false⟩)
              = (getBooks st false).map (·.id) ++ [now] := by
            simp only [applyUpsert, saveBook, hv, Bool.false_eq_true, if_false]
            rw [bookIds, getBooks_saveBooks, List.map_append]
            rfl
          rw [heq]
          have hperm := List.perm_append_singleton now ((getBooks st false).map (·.id))
          rw [hperm.nodup_iff]
          exact List.nodup_cons.mpr ⟨hf rfl, h0⟩

/-- C2 counterexample: starting from a collection with the single id 5
(pairwise distinct), one add-mode upsert whose `Date.now()` value is again
5 leaves two records sharing the id 5, so the uniqueness invariant fails
under the code as written. -/
theorem upsert_uniqueness_counterexample :
    (bookIds ⟨some [⟨5, "A", "X", "r"⟩], none⟩).Nodup ∧
      ¬ (bookIds (applyUpserts ⟨some [⟨5, "A", "X", "r"⟩], none⟩
          [⟨none, "B", "Y", "s", 5, false, false⟩])).Nodup := by
  constructor
  · decide
  · decide

/-- C2 amended: starting from a collection with pairwise-distinct ids,
after any sequence of upsert calls in which every add-mode call's freshly
generated id differs from all ids it reads from the store at that moment,
no two records share an id. -/
theorem upsert_uniqueness_amended (cs : List UpsertCall) (st : Store)
    (h0 : (bookIds st).Nodup) (hfs : FreshSeq st cs) :
    (bookIds (applyUpserts st cs)).Nodup := by
  induction cs generalizing st with
  | nil => exact h0
  | cons c cs ih =>
    exact ih (applyUpsert st c) (bookIds_applyUpsert_nodup st c h0 hfs.1) hfs.2

/-- C2 amended witness: one fresh add-mode call on the empty store keeps
the ids pairwise distinct. -/
theorem upsert_uniqueness_amended_witness :
    (bookIds (applyUpserts emptyStore [⟨none, "B", "Y", "s", 5, false, false⟩])).Nodup :=
  upsert_uniqueness_amended [⟨none, "B", "Y", "s", 5, false, false⟩] emptyStore
    (by decide) ⟨fun _ => by decide, trivial⟩

end App
